import Mathlib

/-!
Verification development for the security-group / auto-scaling-group
simulator.  The definitions below are a shallow embedding of the Python
sources: security_group_rule.py, security_group.py, warm_pool_asg.py and
auto_scalling_group.py.  Machine integers of the source are modelled as Int
(Python integers are unbounded), CPU metrics and wall-clock times as Rat
(the source only compares and subtracts them), IPv4 addresses as Fin (2 ^ 32)
(the values produced by a successful ipaddress.ip_address parse), and the
in-place random.shuffle of the warm pool as an explicitly passed reordering
function on lists.
-/

/-- Network protocol of a flow or of a rule (security_group_rule.py, class
Protocol): tcp, udp, icmp, or the wildcard ALL. -/
inductive Protocol where
  | tcp
  | udp
  | icmp
  | all
deriving DecidableEq, Repr

/-- IPv4 address values, as produced by a successful ip_address parse. -/
abbrev Ipv4 := Fin (2 ^ 32)

/-- A parsed CIDR block (security_group_rule.py, class IpRange): the network
address value and the mask length of a valid network string.  A valid parse
has plen less than or equal to 32 and the host bits of addr zero; the source
treats an unparseable CIDR as a configuration error, so only parsed values
are modelled. -/
structure IpRange where
  addr : Nat
  plen : Nat
deriving DecidableEq, Repr

/-- Membership of an address in a CIDR block: the ip_address-in-ip_network
test of IpRange.contains, which compares the network-part bits of the
address with the network address. -/
def IpRange.contains (r : IpRange) (ip : Ipv4) : Bool :=
  ip.val / 2 ^ (32 - r.plen) == r.addr / 2 ^ (32 - r.plen)

/-- The 0.0.0.0/0 block: network address 0, mask length 0. -/
def IpRange.anywhere : IpRange := { addr := 0, plen := 0 }

/-- One directional security-group rule (security_group_rule.py, class
SecurityGroupRule). -/
structure SecurityGroupRule where
  protocol : Protocol
  from_port : Int
  to_port : Int
  ip_ranges : List IpRange
  is_egress : Bool
deriving DecidableEq, Repr

/-- The port-match sub-expression of SecurityGroupRule.matches_traffic:
port lies in the inclusive range from from_port to to_port, or the sentinel
from_port == -1 holds. -/
def SecurityGroupRule.port_match (r : SecurityGroupRule) (port : Int) : Bool :=
  (decide (r.from_port ≤ port) && decide (port ≤ r.to_port)) || decide (r.from_port = -1)

/-- SecurityGroupRule.matches_traffic: protocol must equal the rule protocol
or the rule protocol is ALL; then the port must match; then some CIDR of the
rule must contain the address. -/
def SecurityGroupRule.matches_traffic (r : SecurityGroupRule) (protocol : Protocol)
    (port : Int) (ip : Ipv4) : Bool :=
  if r.protocol ≠ protocol ∧ r.protocol ≠ Protocol.all then
    false
  else if r.port_match port then
    r.ip_ranges.any (fun range => range.contains ip)
  else
    false

/-- A single flow attempt (security_group_rule.py, class Traffic). -/
structure Traffic where
  source_ip : Ipv4
  destination_ip : Ipv4
  protocol : Protocol
  port : Int
deriving DecidableEq, Repr

/-- The reverse flow constructed inside SecurityGroup.allow_outbound_traffic:
source and destination swapped, same protocol and port. -/
def Traffic.reverse (t : Traffic) : Traffic :=
  { source_ip := t.destination_ip
    destination_ip := t.source_ip
    protocol := t.protocol
    port := t.port }

/-- A security group (security_group.py, class SecurityGroup): ordered lists
of ingress and egress rules. -/
structure SecurityGroup where
  group_id : String
  name : String
  description : String
  inbound_rules : List SecurityGroupRule
  outbound_rules : List SecurityGroupRule
deriving DecidableEq, Repr

/-- SecurityGroup.add_ingress_rule: append one ingress rule with a single
CIDR. -/
def SecurityGroup.add_ingress_rule (sg : SecurityGroup) (protocol : Protocol)
    (from_port to_port : Int) (cidr : IpRange) : SecurityGroup :=
  { sg with inbound_rules := sg.inbound_rules ++
      [{ protocol := protocol, from_port := from_port, to_port := to_port,
         ip_ranges := [cidr], is_egress := false }] }

/-- SecurityGroup.add_egress_rule: append one egress rule with a single
CIDR. -/
def SecurityGroup.add_egress_rule (sg : SecurityGroup) (protocol : Protocol)
    (from_port to_port : Int) (cidr : IpRange) : SecurityGroup :=
  { sg with outbound_rules := sg.outbound_rules ++
      [{ protocol := protocol, from_port := from_port, to_port := to_port,
         ip_ranges := [cidr], is_egress := true }] }

/-- The SecurityGroup constructor: empty rule lists, then the default
allow-all egress rule (ALL, -1, -1, 0.0.0.0/0) added at construction. -/
def SecurityGroup.new (group_id name description : String) : SecurityGroup :=
  SecurityGroup.add_egress_rule
    { group_id := group_id, name := name, description := description,
      inbound_rules := [], outbound_rules := [] }
    Protocol.all (-1) (-1) IpRange.anywhere

/-- SecurityGroup.allow_inbound_traffic: some ingress rule matches
(protocol, port, source_ip). -/
def SecurityGroup.allow_inbound_traffic (sg : SecurityGroup) (t : Traffic) : Bool :=
  sg.inbound_rules.any (fun rule => rule.matches_traffic t.protocol t.port t.source_ip)

/-- SecurityGroup.allow_outbound_traffic: first the stateful check of the
reverse flow against the ingress rules; only if that fails, the egress rules
against (protocol, port, destination_ip). -/
def SecurityGroup.allow_outbound_traffic (sg : SecurityGroup) (t : Traffic) : Bool :=
  if sg.allow_inbound_traffic t.reverse then
    true
  else
    sg.outbound_rules.any (fun rule => rule.matches_traffic t.protocol t.port t.destination_ip)

/-- An active or warm instance (ec2.py class EC2Instance fused with its
only subclass, ec2_instance_with_metrics.py class EC2InstanceWithMetrics;
the metrics dictionary is flattened into its four fixed keys). -/
structure EC2InstanceWithMetrics where
  resource_id : String
  instance_type : String
  ami_id : String
  security_groups : List SecurityGroup
  status : String
  cpu_utilization : Rat
  memory_utilization : Rat
  network_in : Rat
  network_out : Rat
  health_status : String
  health_check_count : Int
deriving DecidableEq, Repr

/-- EC2Instance.start: set the run-state to running. -/
def EC2InstanceWithMetrics.start (i : EC2InstanceWithMetrics) : EC2InstanceWithMetrics :=
  { i with status := "running" }

/-- EC2Instance.stop: set the run-state to stopped. -/
def EC2InstanceWithMetrics.stop (i : EC2InstanceWithMetrics) : EC2InstanceWithMetrics :=
  { i with status := "stopped" }

/-- An instance-creation recipe (launch_template.py, class LaunchTemplate). -/
structure LaunchTemplate where
  template_id : String
  instance_type : String
  ami_id : String
  security_groups : List SecurityGroup
deriving DecidableEq, Repr

/-- LaunchTemplate.create_instance fused with the EC2InstanceWithMetrics
re-wrap performed at every call site (auto_scalling_group.py lines 117 to
127 and warm_pool_asg.py lines 21 to 32): copy id, type and image from the
template, attach the template security groups, zero metrics, healthy, zero
failure count, stopped run-state. -/
def LaunchTemplate.create_instance (lt : LaunchTemplate) (instance_id : String) :
    EC2InstanceWithMetrics :=
  { resource_id := instance_id
    instance_type := lt.instance_type
    ami_id := lt.ami_id
    security_groups := lt.security_groups
    status := "stopped"
    cpu_utilization := 0
    memory_utilization := 0
    network_in := 0
    network_out := 0
    health_status := "healthy"
    health_check_count := 0 }

/-- Health-check configuration (auto_scalling_group.py, class HealthCheck). -/
structure HealthCheck where
  check_type : String
  grace_period : Int
  threshold : Int
  interval : Int
deriving DecidableEq, Repr

/-- The default HealthCheck constructed by the AutoScalingGroup constructor:
EC2 checks, 300 second grace period, threshold 2, 60 second interval. -/
def HealthCheck.default : HealthCheck :=
  { check_type := "EC2", grace_period := 300, threshold := 2, interval := 60 }

/-- HealthCheck.check_instance: if the run-state is not running, increment
the instance failure counter, mark unhealthy once the counter reaches the
threshold, and report failure; if running, reset the counter, mark healthy,
and report success.  Returns the verdict together with the updated
instance. -/
def HealthCheck.check_instance (hc : HealthCheck) (inst : EC2InstanceWithMetrics) :
    Bool × EC2InstanceWithMetrics :=
  if inst.status ≠ "running" then
    let inst := { inst with health_check_count := inst.health_check_count + 1 }
    let inst :=
      if hc.threshold ≤ inst.health_check_count then
        { inst with health_status := "unhealthy" }
      else
        inst
    (false, inst)
  else
    (true, { inst with health_check_count := 0, health_status := "healthy" })

/-- A threshold-plus-cooldown scaling rule (auto_scalling_group.py, class
ScalingPolicy).  last_scaled_time is initialised to 0 by the constructor. -/
structure ScalingPolicy where
  metric : String
  threshold : Rat
  adjustment : Int
  comparison : String
  cooldown : Rat
  last_scaled_time : Rat
deriving DecidableEq, Repr

/-- ScalingPolicy.should_scale: inside the cooldown window the call returns
false and changes nothing; otherwise a satisfied threshold comparison
returns true and stamps last_scaled_time with the current time, and a
failed comparison returns false and changes nothing.  Returns the verdict
together with the updated policy. -/
def ScalingPolicy.should_scale (p : ScalingPolicy) (current_value current_time : Rat) :
    Bool × ScalingPolicy :=
  if current_time - p.last_scaled_time < p.cooldown then
    (false, p)
  else if p.comparison = "greater" ∧ p.threshold < current_value then
    (true, { p with last_scaled_time := current_time })
  else if p.comparison = "less" ∧ current_value < p.threshold then
    (true, { p with last_scaled_time := current_time })
  else
    (false, p)

/-- A reorder function standing for an in-place random.shuffle call: the
source shuffles the reserve list uniformly at random, so theorems about the
random reuse policy quantify over every reordering that is a permutation of
its input. -/
abbrev ShuffleFn := List EC2InstanceWithMetrics → List EC2InstanceWithMetrics

/-- The warm pool (warm_pool_asg.py, class WarmPool). -/
structure WarmPool where
  size : Int
  min_size : Int
  instance_reuse_policy : String
  instances : List EC2InstanceWithMetrics
  state : String
deriving DecidableEq, Repr

/-- The warm-pool initialization step of the source, initReserve here:
create size template instances named
asg_name-warm-instance-i, keep them stopped, append them to the reserve and
mark the pool ready. -/
def WarmPool.initReserve (wp : WarmPool) (lt : LaunchTemplate) (asg_name : String) : WarmPool :=
  { wp with
    instances := wp.instances ++
      (List.range wp.size.toNat).map
        (fun i => lt.create_instance (asg_name ++ "-warm-instance-" ++ toString (i + 1)))
    state := "ready" }

/-- WarmPool.get_instances: empty result for non-positive count or an empty
reserve; otherwise select min(count, reserve length) instances per the
reuse policy (oldest_first the prefix, newest_first the suffix, any other
policy the prefix of the shuffled reserve), remove them from the reserve,
start each, and return them.  The source removes the selected objects by
identity from the reserve, which leaves exactly the complementary
sublist. -/
def WarmPool.get_instances (wp : WarmPool) (count : Int) (sh : ShuffleFn) :
    List EC2InstanceWithMetrics × WarmPool :=
  if count ≤ 0 ∨ wp.instances = [] then
    ([], wp)
  else
    let c : Nat := min count.toNat wp.instances.length
    if wp.instance_reuse_policy = "oldest_first" then
      ((wp.instances.take c).map EC2InstanceWithMetrics.start,
       { wp with instances := wp.instances.drop c })
    else if wp.instance_reuse_policy = "newest_first" then
      ((wp.instances.drop (wp.instances.length - c)).map EC2InstanceWithMetrics.start,
       { wp with instances := wp.instances.take (wp.instances.length - c) })
    else
      let shuffled := sh wp.instances
      ((shuffled.take c).map EC2InstanceWithMetrics.start,
       { wp with instances := shuffled.drop c })

/-- WarmPool.add_instances: stop each given instance and append it to the
reserve unconditionally. -/
def WarmPool.add_instances (wp : WarmPool) (given : List EC2InstanceWithMetrics) : WarmPool :=
  { wp with instances := wp.instances ++ given.map EC2InstanceWithMetrics.stop }

/-- The auto-scaling group (auto_scalling_group.py, class
AutoScalingGroup). -/
structure AutoScalingGroup where
  name : String
  launch_template : LaunchTemplate
  min_size : Int
  max_size : Int
  desired_capacity : Int
  instances : List EC2InstanceWithMetrics
  scale_out_policies : List ScalingPolicy
  scale_in_policies : List ScalingPolicy
  health_check : HealthCheck
  warm_pool : Option WarmPool
deriving DecidableEq, Repr

/-- The instance selected by the removal step, with its index: Python
min(instances, key cpu) returns the first instance attaining the minimal
cpu_utilization, and list.remove deletes exactly that position. -/
def selectMin : List EC2InstanceWithMetrics → Option (Nat × EC2InstanceWithMetrics)
  | [] => none
  | i :: rest =>
    match selectMin rest with
    | none => some (0, i)
    | some (j, m) =>
      if m.cpu_utilization < i.cpu_utilization then some (j + 1, m) else some (0, i)

/-- The fresh-creation tail of AutoScalingGroup._add_instance: synthesize an
instance from the launch template named name-instance-(n + 1) where n is
the current active count, start it, and append it. -/
def AutoScalingGroup.add_fresh_instance (asg : AutoScalingGroup) :
    Option EC2InstanceWithMetrics × AutoScalingGroup :=
  let inst := (asg.launch_template.create_instance
      (asg.name ++ "-instance-" ++ toString (asg.instances.length + 1))).start
  (some inst, { asg with instances := asg.instances ++ [inst] })

/-- AutoScalingGroup._add_instance: a no-op returning none at or above
max_size; otherwise take one warm instance if the pool is configured and
non-empty, else create a fresh instance from the template.  A real shuffle
is a permutation, so the warm take of one instance from a non-empty reserve
is never empty; the empty-take fallback is kept for arbitrary reorder
functions and mirrors the source falling through to fresh creation. -/
def AutoScalingGroup.add_instance (asg : AutoScalingGroup) (sh : ShuffleFn) :
    Option EC2InstanceWithMetrics × AutoScalingGroup :=
  if asg.max_size ≤ (asg.instances.length : Int) then
    (none, asg)
  else
    match asg.warm_pool with
    | some wp =>
      if wp.instances ≠ [] then
        match wp.get_instances 1 sh with
        | (i :: _, wp') =>
          (some i, { asg with instances := asg.instances ++ [i], warm_pool := some wp' })
        | ([], wp') =>
          AutoScalingGroup.add_fresh_instance { asg with warm_pool := some wp' }
      else
        asg.add_fresh_instance
    | none => asg.add_fresh_instance

/-- AutoScalingGroup._remove_instance: a no-op returning none at or below
min_size; otherwise delete the first active instance with the lowest CPU
metric, recycle it into the warm pool when the pool exists and has spare
capacity, else stop it.  With a non-empty active list selectMin always
returns a value; the none branch is unreachable there (Python would raise
ValueError on min of an empty list, possible only with a negative
min_size). -/
def AutoScalingGroup.remove_instance (asg : AutoScalingGroup) :
    Option EC2InstanceWithMetrics × AutoScalingGroup :=
  if (asg.instances.length : Int) ≤ asg.min_size then
    (none, asg)
  else
    match selectMin asg.instances with
    | none => (none, asg)
    | some (j, inst) =>
      let asg' := { asg with instances := asg.instances.eraseIdx j }
      match asg.warm_pool with
      | some wp =>
        if (wp.instances.length : Int) < wp.size then
          (some inst.stop, { asg' with warm_pool := some (wp.add_instances [inst]) })
        else
          (some inst.stop, asg')
      | none => (some inst.stop, asg')

/-- Run n consecutive _add_instance calls, discarding the returned
instances (the body of a fired scale-out adjustment loop). -/
def AutoScalingGroup.run_adds (sh : ShuffleFn) : Nat → AutoScalingGroup → AutoScalingGroup
  | 0, asg => asg
  | n + 1, asg => AutoScalingGroup.run_adds sh n (asg.add_instance sh).2

/-- Run n consecutive _remove_instance calls, discarding the returned
instances (the body of a fired scale-in adjustment loop). -/
def AutoScalingGroup.run_removes : Nat → AutoScalingGroup → AutoScalingGroup
  | 0, asg => asg
  | n + 1, asg => AutoScalingGroup.run_removes n asg.remove_instance.2

/-- AutoScalingGroup.start: initialize the warm pool if configured, then
perform desired_capacity _add_instance calls. -/
def AutoScalingGroup.start (asg : AutoScalingGroup) (sh : ShuffleFn) : AutoScalingGroup :=
  AutoScalingGroup.run_adds sh asg.desired_capacity.toNat
    (match asg.warm_pool with
     | some wp =>
       { asg with warm_pool := some (wp.initReserve asg.launch_template asg.name) }
     | none => asg)

/-- AutoScalingGroup.stop: stop every active instance and clear the active
list; stop the warm pool if configured (its reserve is emptied and its
state set to stopped). -/
def AutoScalingGroup.stop (asg : AutoScalingGroup) : AutoScalingGroup :=
  { asg with
    instances := []
    warm_pool := asg.warm_pool.map (fun wp => { wp with instances := [], state := "stopped" }) }

/-- AutoScalingGroup.simulate_traffic: assign the given load to the CPU
metric of every active instance. -/
def AutoScalingGroup.simulate_traffic (asg : AutoScalingGroup) (load : Rat) : AutoScalingGroup :=
  { asg with instances := asg.instances.map (fun i => { i with cpu_utilization := load }) }

/-- The left-to-right sum of the CPU metrics of the active instances. -/
def sumCpu (l : List EC2InstanceWithMetrics) : Rat :=
  l.foldl (fun a i => a + i.cpu_utilization) 0

/-- One pass over a policy list inside evaluate_metrics: evaluate each
policy against the fixed average (computed once, before any policy runs),
collect the updated policies, and on each firing run that policy's
adjustment loop (adds for scale-out, removes for scale-in, selected by the
act argument). -/
def evalPolicies (avg now : Rat) (act : ScalingPolicy → AutoScalingGroup → AutoScalingGroup) :
    List ScalingPolicy → AutoScalingGroup → List ScalingPolicy × AutoScalingGroup
  | [], asg => ([], asg)
  | p :: rest, asg =>
    let (fire, p') := p.should_scale avg now
    let asg := if fire then act p asg else asg
    let (rest', asg') := evalPolicies avg now act rest asg
    (p' :: rest', asg')

/-- AutoScalingGroup.evaluate_metrics: compute the mean CPU across active
instances (0 when none), run every scale-out policy against it performing
the fired adjustment loops immediately, then every scale-in policy against
the same mean, and store the updated policies. -/
def AutoScalingGroup.evaluate_metrics (asg : AutoScalingGroup) (now : Rat) (sh : ShuffleFn) :
    AutoScalingGroup :=
  let avg :=
    if asg.instances.length = 0 then 0
    else sumCpu asg.instances / (asg.instances.length : Rat)
  let outRes := evalPolicies avg now
    (fun p a => AutoScalingGroup.run_adds sh p.adjustment.toNat a)
    asg.scale_out_policies asg
  let inRes := evalPolicies avg now
    (fun p a => AutoScalingGroup.run_removes p.adjustment.toNat a)
    asg.scale_in_policies outRes.2
  { inRes.2 with scale_out_policies := outRes.1, scale_in_policies := inRes.1 }

/-- One step of the check_health loop: Python iterates the live list by
index, so each pass reads the element at the current index of the possibly
mutated list, writes back the instance updated by check_instance, and on a
failed check performs a remove followed by an add before advancing the
index.  The fuel bounds the number of iterations; any fuel at least the
final list length makes the recursion exit through the index test exactly
as the source loop does. -/
def AutoScalingGroup.check_health_loop (sh : ShuffleFn) :
    Nat → Nat → AutoScalingGroup → AutoScalingGroup
  | 0, _, asg => asg
  | fuel + 1, i, asg =>
    match asg.instances[i]? with
    | none => asg
    | some inst =>
      let res := asg.health_check.check_instance inst
      let upd := { asg with instances := asg.instances.set i res.2 }
      if res.1 then
        AutoScalingGroup.check_health_loop sh fuel (i + 1) upd
      else
        AutoScalingGroup.check_health_loop sh fuel (i + 1)
          ((upd.remove_instance.2.add_instance sh).2)

/-- AutoScalingGroup.check_health: run the health loop from index 0. -/
def AutoScalingGroup.check_health (asg : AutoScalingGroup) (sh : ShuffleFn) (fuel : Nat) :
    AutoScalingGroup :=
  AutoScalingGroup.check_health_loop sh fuel 0 asg

/-- One group-level mutation, as named by the spec: a single add or remove,
or one of the compound operations that perform adds and removes
internally. -/
inductive AsgOp where
  | addOne (sh : ShuffleFn)
  | removeOne
  | startGroup (sh : ShuffleFn)
  | evaluate (now : Rat) (sh : ShuffleFn)
  | health (fuel : Nat) (sh : ShuffleFn)
  | traffic (load : Rat)

/-- Apply one group-level mutation. -/
def AsgOp.apply (op : AsgOp) (asg : AutoScalingGroup) : AutoScalingGroup :=
  match op with
  | .addOne sh => (asg.add_instance sh).2
  | .removeOne => asg.remove_instance.2
  | .startGroup sh => asg.start sh
  | .evaluate now sh => asg.evaluate_metrics now sh
  | .health fuel sh => asg.check_health sh fuel
  | .traffic load => asg.simulate_traffic load

/-- Apply a sequence of group-level mutations, left to right. -/
def applyOps (asg : AutoScalingGroup) (ops : List AsgOp) : AutoScalingGroup :=
  ops.foldl (fun s op => op.apply s) asg

/-- The capacity invariant of the spec: min_size at most the active count,
active count at most max_size. -/
def asgInv (asg : AutoScalingGroup) : Prop :=
  asg.min_size ≤ (asg.instances.length : Int) ∧ (asg.instances.length : Int) ≤ asg.max_size

/-- A sample launch template with no attached security groups. -/
def sampleTemplate : LaunchTemplate :=
  { template_id := "lt-1", instance_type := "t2.micro", ami_id := "ami-1",
    security_groups := [] }

/-- A sample instance with the given identifier, run-state, CPU metric and
failure count; the remaining fields are the constructor defaults. -/
def mkSampleInstance (id status : String) (cpu : Rat) (count : Int) :
    EC2InstanceWithMetrics :=
  { resource_id := id, instance_type := "t2.micro", ami_id := "ami-1",
    security_groups := [], status := status, cpu_utilization := cpu,
    memory_utilization := 0, network_in := 0, network_out := 0,
    health_status := "healthy", health_check_count := count }

/-- A freshly constructed group named g with bounds 1 to 5, desired
capacity 2, no scaling policies and no warm pool. -/
def asgFresh : AutoScalingGroup :=
  { name := "g", launch_template := sampleTemplate, min_size := 1, max_size := 5,
    desired_capacity := 2, instances := [], scale_out_policies := [],
    scale_in_policies := [], health_check := HealthCheck.default, warm_pool := none }

/-- A group holding a failing instance i-A (stopped, CPU 50, one prior
failed check) and a healthy instance i-B (running, CPU 10): the input that
separates the health-replacement claim from the code. -/
def asgHealth : AutoScalingGroup :=
  { asgFresh with
    instances := [mkSampleInstance "i-A" "stopped" 50 1,
                  mkSampleInstance "i-B" "running" 10 0] }

/-- A group whose bounds are both zero while holding no instances: both the
add guard and the remove guard are active at once. -/
def asgAtBounds : AutoScalingGroup :=
  { asgFresh with min_size := 0, max_size := 0, desired_capacity := 0 }

/-- The web security group of the stateful-reply scenario: a fresh group
plus one ingress rule allowing TCP port 80 from 0.0.0.0/0, and no egress
rule beyond the default allow-all. -/
def webGroup : SecurityGroup :=
  (SecurityGroup.new "sg-web" "web" "").add_ingress_rule Protocol.tcp 80 80 IpRange.anywhere

/-- The rule of the rule-matching scenario: protocol ALL, both port bounds
the sentinel, CIDR 0.0.0.0/0. -/
def allRule : SecurityGroupRule :=
  { protocol := Protocol.all, from_port := -1, to_port := -1,
    ip_ranges := [IpRange.anywhere], is_egress := false }

/-- Repeated should_scale calls against one policy, collecting the verdicts
and threading the updated policy left to right. -/
def ScalingPolicy.run_calls (p : ScalingPolicy) :
    List (Rat × Rat) → List Bool × ScalingPolicy
  | [] => ([], p)
  | c :: rest =>
    let (b, p') := p.should_scale c.1 c.2
    let (bs, p'') := p'.run_calls rest
    (b :: bs, p'')

/-- The scale-out policy of the cooldown scenario: fire above CPU 70, one
instance, 60 second cooldown, timer at 0. -/
def samplePolicy : ScalingPolicy :=
  { metric := "cpu_utilization", threshold := 70, adjustment := 1,
    comparison := "greater", cooldown := 60, last_scaled_time := 0 }

/-- A ready warm pool using the oldest_first reuse policy and holding two
stopped reserve instances. -/
def wpSample : WarmPool :=
  { size := 3, min_size := 0, instance_reuse_policy := "oldest_first",
    instances := [mkSampleInstance "g-warm-instance-1" "stopped" 0 0,
                  mkSampleInstance "g-warm-instance-2" "stopped" 0 0],
    state := "ready" }

/-- The fresh group of asgFresh with the sample warm pool attached. -/
def asgWarm : AutoScalingGroup :=
  { asgFresh with warm_pool := some wpSample }

/-- The reachable state of the id-collision scenario: from the fresh group,
add two instances, remove one (both at CPU 0, so the first minimum, the
older g-instance-1, is removed). -/
def asgBeforeDup : AutoScalingGroup :=
  (((asgFresh.add_instance id).2.add_instance id).2).remove_instance.2

/-- The id-collision state: one further add on asgBeforeDup. -/
def asgDupState : AutoScalingGroup :=
  (asgBeforeDup.add_instance id).2

instance (asg : AutoScalingGroup) : Decidable (asgInv asg) :=
  inferInstanceAs (Decidable (_ ∧ _))

/-- Every IPv4 address lies in the 0.0.0.0/0 block. -/
theorem IpRange.contains_anywhere (ip : Ipv4) : IpRange.anywhere.contains ip = true := by
  have h : ip.val < 4294967296 := ip.isLt
  simp [IpRange.contains, IpRange.anywhere, Nat.div_eq_of_lt h]

/-- C5: matches_traffic returns true exactly when the protocol matches (the
rule protocol equals the traffic protocol or is ALL), the port matches
(from_port is the sentinel -1, or port lies between from_port and to_port
inclusive), and some CIDR of the rule contains the address; consequently
the rule with protocol ALL, both port bounds -1 and CIDR 0.0.0.0/0 matches
every protocol, port and address. -/
theorem matches_traffic_characterisation (r : SecurityGroupRule) (protocol : Protocol)
    (port : Int) (ip : Ipv4) :
    (r.matches_traffic protocol port ip =
      ((decide (r.protocol = protocol) || decide (r.protocol = Protocol.all)) &&
       (decide (r.from_port = -1) ||
         (decide (r.from_port ≤ port) && decide (port ≤ r.to_port))) &&
       r.ip_ranges.any (fun range => range.contains ip))) ∧
    allRule.matches_traffic protocol port ip = true := by
  constructor
  · unfold SecurityGroupRule.matches_traffic SecurityGroupRule.port_match
    by_cases h1 : r.protocol = protocol <;> by_cases h2 : r.protocol = Protocol.all <;>
      by_cases h3 : r.from_port = -1 <;> by_cases h4 : r.from_port ≤ port <;>
        by_cases h5 : port ≤ r.to_port <;>
          simp [h1, h2, h3, h4, h5]
  · simp [allRule, SecurityGroupRule.matches_traffic, SecurityGroupRule.port_match,
      IpRange.contains_anywhere]

/-- C8 counterexample: a rule with protocol ALL but finite port bounds does
not match port 81 even for an address inside its CIDR, and the port-match
component fails for a rule with to_port = -1 but from_port = 80 at port
100, and for the ALL-protocol rule with bounds 80 to 80 at port 81 —
refuting that to_port = -1 alone or protocol ALL alone means any port. -/
theorem port_any_sentinel_claim_false :
    SecurityGroupRule.matches_traffic
      { protocol := Protocol.all, from_port := 80, to_port := 80,
        ip_ranges := [IpRange.anywhere], is_egress := false } Protocol.tcp 81 0 = false ∧
    SecurityGroupRule.port_match
      { protocol := Protocol.all, from_port := 80, to_port := 80,
        ip_ranges := [IpRange.anywhere], is_egress := false } 81 = false ∧
    SecurityGroupRule.port_match
      { protocol := Protocol.tcp, from_port := 80, to_port := -1,
        ip_ranges := [IpRange.anywhere], is_egress := false } 100 = false := by
  refine ⟨?_, by decide, by decide⟩
  simp [SecurityGroupRule.matches_traffic, SecurityGroupRule.port_match]

/-- C8 amended: the port is unrestricted exactly through the from_port
sentinel: for every rule whose from_port is -1 — whatever its protocol and
to_port — and for every port value, the port-match component of
matches_traffic succeeds. -/
theorem port_any_iff_from_port_sentinel (r : SecurityGroupRule) (port : Int)
    (h : r.from_port = -1) : r.port_match port = true := by
  simp [SecurityGroupRule.port_match, h]

/-- Witness for the amended port-sentinel theorem at a concrete rule and
port. -/
theorem port_any_iff_from_port_sentinel_witness :
    SecurityGroupRule.port_match
      { protocol := Protocol.udp, from_port := -1, to_port := 5,
        ip_ranges := [], is_egress := true } 9999 = true :=
  port_any_iff_from_port_sentinel _ 9999 rfl

/-- C2: allow_outbound_traffic equals the stateful check of the reverse
flow against the ingress rules, or else the explicit egress evaluation at
(protocol, port, destination_ip); when the stateful check passes the egress
rules are never consulted (the result is true for every egress list); and
for the group whose only ingress rule allows TCP port 80 from 0.0.0.0/0,
every inbound TCP port-80 flow is allowed and its reverse flow is
authorized outbound even with the egress list emptied of the default
allow-all. -/
theorem allow_outbound_stateful_first (sg : SecurityGroup) (t : Traffic) :
    (sg.allow_outbound_traffic t =
      (sg.allow_inbound_traffic t.reverse ||
        sg.outbound_rules.any
          (fun rule => rule.matches_traffic t.protocol t.port t.destination_ip))) ∧
    (sg.allow_inbound_traffic t.reverse = true →
      ∀ egress : List SecurityGroupRule,
        SecurityGroup.allow_outbound_traffic { sg with outbound_rules := egress } t = true) ∧
    (∀ src dst : Ipv4,
      webGroup.allow_inbound_traffic
        { source_ip := src, destination_ip := dst, protocol := Protocol.tcp, port := 80 } =
        true) ∧
    (∀ src dst : Ipv4,
      SecurityGroup.allow_outbound_traffic { webGroup with outbound_rules := [] }
        { source_ip := dst, destination_ip := src, protocol := Protocol.tcp, port := 80 } =
        true) := by
  refine ⟨?_, ?_, ?_, ?_⟩
  · cases h : sg.allow_inbound_traffic t.reverse <;>
      simp [SecurityGroup.allow_outbound_traffic, h]
  · intro h egress
    have h' : SecurityGroup.allow_inbound_traffic { sg with outbound_rules := egress }
        t.reverse = true := h
    simp [SecurityGroup.allow_outbound_traffic, h']
  · intro src dst
    simp [webGroup, SecurityGroup.new, SecurityGroup.add_ingress_rule,
      SecurityGroup.add_egress_rule, SecurityGroup.allow_inbound_traffic,
      SecurityGroupRule.matches_traffic, SecurityGroupRule.port_match,
      IpRange.contains_anywhere]
  · intro src dst
    simp [webGroup, SecurityGroup.new, SecurityGroup.add_ingress_rule,
      SecurityGroup.add_egress_rule, SecurityGroup.allow_outbound_traffic,
      SecurityGroup.allow_inbound_traffic, Traffic.reverse,
      SecurityGroupRule.matches_traffic, SecurityGroupRule.port_match,
      IpRange.contains_anywhere]

/-- Witness for the stateful-outbound theorem: a concrete TCP port-80 reply
flow through the web group with no egress rules at all. -/
theorem allow_outbound_stateful_first_witness :
    SecurityGroup.allow_outbound_traffic { webGroup with outbound_rules := [] }
      { source_ip := 9, destination_ip := 5, protocol := Protocol.tcp, port := 80 } = true :=
  (allow_outbound_stateful_first
      { webGroup with outbound_rules := [] }
      { source_ip := 9, destination_ip := 5, protocol := Protocol.tcp, port := 80 }).2.1
    (by decide) []

/-- C7: a capacity-bound violation is a no-op failure result: _add_instance
at or above max_size, and _remove_instance at or below min_size, return
none and leave the whole group state — active list, warm pool and all —
unchanged. -/
theorem capacity_violation_is_noop (asg : AutoScalingGroup) (sh : ShuffleFn) :
    (asg.max_size ≤ (asg.instances.length : Int) → asg.add_instance sh = (none, asg)) ∧
    ((asg.instances.length : Int) ≤ asg.min_size → asg.remove_instance = (none, asg)) := by
  constructor
  · intro h
    simp [AutoScalingGroup.add_instance, h]
  · intro h
    simp [AutoScalingGroup.remove_instance, h]

/-- Witness for the capacity no-op theorem: the zero-bound group refuses
both operations and is returned unchanged. -/
theorem capacity_violation_is_noop_witness :
    asgAtBounds.add_instance id = (none, asgAtBounds) ∧
      asgAtBounds.remove_instance = (none, asgAtBounds) :=
  ⟨(capacity_violation_is_noop asgAtBounds id).1 (by decide),
   (capacity_violation_is_noop asgAtBounds id).2 (by decide)⟩

/-- A call inside the cooldown window returns false and leaves the policy
unchanged. -/
theorem should_scale_in_cooldown (p : ScalingPolicy) (v t : Rat)
    (h : t - p.last_scaled_time < p.cooldown) : p.should_scale v t = (false, p) := by
  simp [ScalingPolicy.should_scale, h]

/-- A call that returns false leaves the policy unchanged. -/
theorem should_scale_false_unchanged (p : ScalingPolicy) (v t : Rat)
    (h : (p.should_scale v t).1 = false) : (p.should_scale v t).2 = p := by
  unfold ScalingPolicy.should_scale at h ⊢
  split_ifs at h ⊢ <;> simp_all

/-- A call that returns true stamps the timer with the call time and
changes nothing else. -/
theorem should_scale_true_stamps (p : ScalingPolicy) (v t : Rat)
    (h : (p.should_scale v t).1 = true) :
    (p.should_scale v t).2 = { p with last_scaled_time := t } := by
  unfold ScalingPolicy.should_scale at h ⊢
  split_ifs at h ⊢ <;> simp_all

/-- Every call of a sequence lying inside the cooldown window of a policy
whose timer reads t returns false, and the policy comes out unchanged. -/
theorem run_calls_in_cooldown (q : ScalingPolicy) (t : Rat) (hlast : q.last_scaled_time = t)
    (calls : List (Rat × Rat)) (h : ∀ c ∈ calls, c.2 - t < q.cooldown) :
    (q.run_calls calls).2 = q ∧ ∀ b ∈ (q.run_calls calls).1, b = false := by
  induction calls with
  | nil => simp [ScalingPolicy.run_calls]
  | cons c rest ih =>
    have hc : q.should_scale c.1 c.2 = (false, q) :=
      should_scale_in_cooldown q c.1 c.2 (by rw [hlast]; exact h c (by simp))
    have ih' := ih (fun c' hc' => h c' (by simp [hc']))
    have hrun : q.run_calls (c :: rest) =
        (false :: (q.run_calls rest).1, (q.run_calls rest).2) := by
      simp [ScalingPolicy.run_calls, hc]
    rw [hrun]
    refine ⟨ih'.1, ?_⟩
    intro b hb
    rcases List.mem_cons.mp hb with h1 | h2
    · exact h1
    · exact ih'.2 b h2

/-- C4: the cooldown is self-scoped and the timer moves only on a firing.
A false call leaves the policy untouched; a true call at time t stamps the
timer with t; after a firing at t, any call — indeed any sequence of calls
— at times within cooldown of t returns false and leaves the policy
unchanged, and a greater-comparison policy whose threshold is exceeded
fires again once cooldown has elapsed. -/
theorem scaling_policy_cooldown_self_scoped (p : ScalingPolicy) (v t v' t' : Rat)
    (calls : List (Rat × Rat)) :
    ((p.should_scale v t).1 = false → (p.should_scale v t).2 = p) ∧
    ((p.should_scale v t).1 = true →
      (p.should_scale v t).2 = { p with last_scaled_time := t }) ∧
    ((p.should_scale v t).1 = true → t' - t < p.cooldown →
      ((p.should_scale v t).2.should_scale v' t').1 = false ∧
        ((p.should_scale v t).2.should_scale v' t').2 = (p.should_scale v t).2) ∧
    ((p.should_scale v t).1 = true → p.cooldown ≤ t' - t → p.comparison = "greater" →
      p.threshold < v' → ((p.should_scale v t).2.should_scale v' t').1 = true) ∧
    ((p.should_scale v t).1 = true → (∀ c ∈ calls, c.2 - t < p.cooldown) →
      ((p.should_scale v t).2.run_calls calls).2 = (p.should_scale v t).2 ∧
        ∀ b ∈ ((p.should_scale v t).2.run_calls calls).1, b = false) := by
  refine ⟨should_scale_false_unchanged p v t, should_scale_true_stamps p v t, ?_, ?_, ?_⟩
  · intro h hwin
    rw [should_scale_true_stamps p v t h]
    constructor
    · rw [should_scale_in_cooldown _ v' t' (by simpa using hwin)]
    · rw [should_scale_in_cooldown _ v' t' (by simpa using hwin)]
  · intro h helapsed hcomp hthr
    rw [should_scale_true_stamps p v t h]
    simp only [ScalingPolicy.should_scale]
    rw [if_neg (by simpa using not_lt.mpr helapsed), if_pos ⟨hcomp, hthr⟩]
  · intro h hwin
    rw [should_scale_true_stamps p v t h]
    exact run_calls_in_cooldown _ t rfl calls (by simpa using hwin)

/-- Witness for the cooldown theorem: the 60 second sample policy fires at
t = 60, does not fire at t = 90 though the threshold still holds, and fires
again at t = 121. -/
theorem scaling_policy_cooldown_self_scoped_witness :
    (samplePolicy.should_scale 85 60).1 = true ∧
      ((samplePolicy.should_scale 85 60).2.should_scale 85 90).1 = false ∧
      ((samplePolicy.should_scale 85 60).2.should_scale 85 121).1 = true := by
  have hfire : (samplePolicy.should_scale 85 60).1 = true := by
    norm_num [ScalingPolicy.should_scale, samplePolicy]
  refine ⟨hfire, ?_, ?_⟩
  · exact ((scaling_policy_cooldown_self_scoped samplePolicy 85 60 85 90 []).2.2.1
      hfire (by norm_num [samplePolicy])).1
  · exact (scaling_policy_cooldown_self_scoped samplePolicy 85 60 85 121 []).2.2.2.1
      hfire (by norm_num [samplePolicy]) rfl (by norm_num [samplePolicy])

/-- C9: get_instances returns an empty result and an unchanged pool for a
non-positive count or an empty reserve; otherwise it returns exactly
min(count, reserve length) instances, each transitioned to running, the
reserve loses exactly the selected instances (selection plus remainder is a
permutation of the old reserve), and the selection follows the reuse
policy: oldest_first the prefix, newest_first the suffix, any other policy
the prefix of the shuffled reserve. -/
theorem warm_pool_get_instances_spec (wp : WarmPool) (count : Int) (sh : ShuffleFn) :
    ((count ≤ 0 ∨ wp.instances = []) → wp.get_instances count sh = ([], wp)) ∧
    (0 < count → wp.instances ≠ [] → List.Perm (sh wp.instances) wp.instances →
      ∃ sel rest,
        wp.get_instances count sh =
          (sel.map EC2InstanceWithMetrics.start, { wp with instances := rest }) ∧
        sel.length = min count.toNat wp.instances.length ∧
        List.Perm (sel ++ rest) wp.instances ∧
        (wp.instance_reuse_policy = "oldest_first" →
          sel = wp.instances.take (min count.toNat wp.instances.length) ∧
          rest = wp.instances.drop (min count.toNat wp.instances.length)) ∧
        (wp.instance_reuse_policy = "newest_first" →
          sel = wp.instances.drop
            (wp.instances.length - min count.toNat wp.instances.length) ∧
          rest = wp.instances.take
            (wp.instances.length - min count.toNat wp.instances.length))) := by
  constructor
  · intro h
    simp only [WarmPool.get_instances, if_pos h]
  · intro hc hne hperm
    have hcond : ¬ (count ≤ 0 ∨ wp.instances = []) := by
      push_neg
      exact ⟨by omega, hne⟩
    have hlen : 0 < wp.instances.length := List.length_pos.mpr hne
    unfold WarmPool.get_instances
    rw [if_neg hcond]
    by_cases hold : wp.instance_reuse_policy = "oldest_first"
    · rw [if_pos hold]
      refine ⟨wp.instances.take (min count.toNat wp.instances.length),
        wp.instances.drop (min count.toNat wp.instances.length), rfl, ?_, ?_, ?_, ?_⟩
      · rw [List.length_take]
        omega
      · rw [List.take_append_drop]
      · exact fun _ => ⟨rfl, rfl⟩
      · intro hnew
        rw [hold] at hnew
        simp at hnew
    · rw [if_neg hold]
      by_cases hnewp : wp.instance_reuse_policy = "newest_first"
      · rw [if_pos hnewp]
        refine ⟨wp.instances.drop (wp.instances.length - min count.toNat wp.instances.length),
          wp.instances.take (wp.instances.length - min count.toNat wp.instances.length),
          rfl, ?_, ?_, ?_, ?_⟩
        · rw [List.length_drop]
          omega
        · exact List.perm_append_comm.trans
            (by rw [List.take_append_drop])
        · intro h1
          exact absurd h1 hold
        · exact fun _ => ⟨rfl, rfl⟩
      · rw [if_neg hnewp]
        have hshlen : (sh wp.instances).length = wp.instances.length := hperm.length_eq
        refine ⟨(sh wp.instances).take (min count.toNat wp.instances.length),
          (sh wp.instances).drop (min count.toNat wp.instances.length), rfl, ?_, ?_, ?_, ?_⟩
        · rw [List.length_take, hshlen]
          omega
        · rw [List.take_append_drop]
          exact hperm
        · intro h1
          exact absurd h1 hold
        · intro h1
          exact absurd h1 hnewp

/-- Witness for the get_instances specification: taking one instance from
the two-element oldest_first sample pool under the identity reorder. -/
theorem warm_pool_get_instances_spec_witness :
    ∃ sel rest,
      wpSample.get_instances 1 id =
        (sel.map EC2InstanceWithMetrics.start, { wpSample with instances := rest }) ∧
      sel.length = 1 ∧
      sel = wpSample.instances.take 1 ∧
      rest = wpSample.instances.drop 1 := by
  obtain ⟨sel, rest, h1, h2, h3, h4, h5⟩ :=
    (warm_pool_get_instances_spec wpSample 1 id).2 (by decide) (by decide)
      (List.Perm.refl _)
  obtain ⟨h6, h7⟩ := h4 rfl
  refine ⟨sel, rest, h1, ?_, ?_, ?_⟩
  · rw [h2]
    decide
  · rw [h6]
    rfl
  · rw [h7]
    rfl

/-- Taking one instance from a non-empty reserve under a permutation
reorder yields exactly one started reserve member and shrinks the reserve
by one, whatever the reuse policy. -/
theorem warm_pool_get_one (wp : WarmPool) (sh : ShuffleFn) (hne : wp.instances ≠ [])
    (hperm : List.Perm (sh wp.instances) wp.instances) :
    ∃ a ∈ wp.instances, ∃ rest,
      wp.get_instances 1 sh = ([a.start], { wp with instances := rest }) ∧
      rest.length + 1 = wp.instances.length := by
  have hlen : 0 < wp.instances.length := List.length_pos.mpr hne
  have hc : min (Int.toNat 1) wp.instances.length = 1 := by omega
  unfold WarmPool.get_instances
  rw [if_neg (by push_neg; exact ⟨by omega, hne⟩)]
  by_cases hold : wp.instance_reuse_policy = "oldest_first"
  · rw [if_pos hold]
    obtain ⟨a, tl, hl⟩ := List.exists_cons_of_ne_nil hne
    refine ⟨a, by rw [hl]; exact List.mem_cons_self a tl, tl, ?_, ?_⟩
    · rw [hc, hl]
      rfl
    · rw [hl]
      rfl
  · rw [if_neg hold]
    by_cases hnewp : wp.instance_reuse_policy = "newest_first"
    · rw [if_pos hnewp, hc]
      have hd : (wp.instances.drop (wp.instances.length - 1)).length = 1 := by
        rw [List.length_drop]
        omega
      obtain ⟨a, ha⟩ := List.length_eq_one.mp hd
      refine ⟨a, List.drop_subset _ _ (by rw [ha]; exact List.mem_cons_self a []),
        wp.instances.take (wp.instances.length - 1), ?_, ?_⟩
      · rw [ha]
        rfl
      · rw [List.length_take]
        omega
    · rw [if_neg hnewp, hc]
      have hshne : sh wp.instances ≠ [] := by
        intro h0
        rw [h0] at hperm
        exact hne (List.Perm.nil_eq hperm).symm
      obtain ⟨a, tl, hl⟩ := List.exists_cons_of_ne_nil hshne
      refine ⟨a, hperm.subset (by rw [hl]; exact List.mem_cons_self a tl), tl, ?_, ?_⟩
      · rw [hl]
        rfl
      · have := hperm.length_eq
        rw [hl] at this
        simpa using this

/-- Below max_size, with no warm pool or an empty one, _add_instance falls
through to fresh creation. -/
theorem add_instance_no_warm (asg : AutoScalingGroup) (sh : ShuffleFn)
    (hlt : (asg.instances.length : Int) < asg.max_size)
    (hempty : ∀ wp, asg.warm_pool = some wp → wp.instances = []) :
    asg.add_instance sh = asg.add_fresh_instance := by
  unfold AutoScalingGroup.add_instance
  rw [if_neg (not_le.mpr hlt)]
  rcases hwp : asg.warm_pool with _ | wp
  · rfl
  · have he := hempty wp hwp
    simp [he]

/-- C6: _add_instance returns none when the active count equals max_size;
below max_size, with a configured non-empty warm pool it appends exactly
one started pool member (selected by the reuse policy) and never
synthesizes a fresh instance; only with no warm instance available does it
create a template instance named name-instance-(n + 1) for current count n,
carrying the template security groups, running, appended to the active
list. -/
theorem add_instance_prefers_warm_pool (asg : AutoScalingGroup) (sh : ShuffleFn) :
    ((asg.instances.length : Int) = asg.max_size → asg.add_instance sh = (none, asg)) ∧
    (∀ wp, asg.warm_pool = some wp → wp.instances ≠ [] →
      (asg.instances.length : Int) < asg.max_size →
      List.Perm (sh wp.instances) wp.instances →
      ∃ i ∈ wp.instances, ∃ rest,
        asg.add_instance sh =
          (some i.start,
            { asg with instances := asg.instances ++ [i.start],
                       warm_pool := some { wp with instances := rest } }) ∧
        rest.length + 1 = wp.instances.length) ∧
    ((∀ wp, asg.warm_pool = some wp → wp.instances = []) →
      (asg.instances.length : Int) < asg.max_size →
      ∃ f, asg.add_instance sh = (some f, { asg with instances := asg.instances ++ [f] }) ∧
        f.resource_id = asg.name ++ "-instance-" ++ toString (asg.instances.length + 1) ∧
        f.security_groups = asg.launch_template.security_groups ∧
        f.status = "running") := by
  refine ⟨?_, ?_, ?_⟩
  · intro h
    simp [AutoScalingGroup.add_instance, le_of_eq h.symm]
  · intro wp hwp hne hlt hperm
    obtain ⟨a, ha, rest, hget, hrest⟩ := warm_pool_get_one wp sh hne hperm
    refine ⟨a, ha, rest, ?_, hrest⟩
    unfold AutoScalingGroup.add_instance
    rw [if_neg (not_le.mpr hlt)]
    simp only [hwp]
    rw [if_pos hne, hget]
  · intro hempty hlt
    rw [add_instance_no_warm asg sh hlt hempty]
    exact ⟨_, rfl, rfl, rfl, rfl⟩

/-- Witness for the warm-pool preference theorem: adding to the sample
warm-pool group takes the started oldest reserve instance and leaves a
one-element reserve. -/
theorem add_instance_prefers_warm_pool_witness :
    ∃ i ∈ wpSample.instances, ∃ rest,
      asgWarm.add_instance id =
        (some i.start,
          { asgWarm with instances := asgWarm.instances ++ [i.start],
                         warm_pool := some { wpSample with instances := rest } }) ∧
      rest.length + 1 = wpSample.instances.length :=
  (add_instance_prefers_warm_pool asgWarm id).2.1 wpSample rfl (by decide) (by decide)
    (List.Perm.refl _)

/-- _add_instance either leaves the group unchanged (at capacity) or
appends exactly one instance, possibly updating the warm pool. -/
theorem add_instance_cases (asg : AutoScalingGroup) (sh : ShuffleFn) :
    (asg.max_size ≤ (asg.instances.length : Int) ∧ (asg.add_instance sh).2 = asg) ∨
    ((asg.instances.length : Int) < asg.max_size ∧
      ∃ i pool', (asg.add_instance sh).2 =
        { asg with instances := asg.instances ++ [i], warm_pool := pool' }) := by
  by_cases h : asg.max_size ≤ (asg.instances.length : Int)
  · exact Or.inl ⟨h, by simp [AutoScalingGroup.add_instance, h]⟩
  · refine Or.inr ⟨not_le.mp h, ?_⟩
    unfold AutoScalingGroup.add_instance
    rw [if_neg h]
    rcases asg.warm_pool with _ | wp
    · exact ⟨_, _, rfl⟩
    · dsimp only
      by_cases hne : wp.instances ≠ []
      · rw [if_pos hne]
        rcases hg : wp.get_instances 1 sh with ⟨warm, wp'⟩
        rcases warm with _ | ⟨i0, tl⟩
        · exact ⟨_, _, rfl⟩
        · exact ⟨_, _, rfl⟩
      · rw [if_neg hne]
        exact ⟨_, _, rfl⟩

/-- The index chosen by selectMin is a valid index of the list. -/
theorem selectMin_idx_lt (l : List EC2InstanceWithMetrics) :
    ∀ j m, selectMin l = some (j, m) → j < l.length := by
  induction l with
  | nil =>
    intro j m h
    simp [selectMin] at h
  | cons i rest ih =>
    intro j m h
    unfold selectMin at h
    rcases hr : selectMin rest with _ | ⟨j', m'⟩
    · rw [hr] at h
      dsimp only at h
      simp only [Option.some.injEq, Prod.mk.injEq] at h
      obtain ⟨h1, -⟩ := h
      simp only [List.length_cons]
      omega
    · rw [hr] at h
      dsimp only at h
      split_ifs at h
      · simp only [Option.some.injEq, Prod.mk.injEq] at h
        obtain ⟨h1, -⟩ := h
        have := ih j' m' hr
        simp only [List.length_cons]
        omega
      · simp only [Option.some.injEq, Prod.mk.injEq] at h
        obtain ⟨h1, -⟩ := h
        simp only [List.length_cons]
        omega

/-- _remove_instance either leaves the group unchanged (at or below
min_size, or an empty list under a negative min_size) or deletes exactly
one instance at a valid index, possibly updating the warm pool. -/
theorem remove_instance_cases (asg : AutoScalingGroup) :
    asg.remove_instance.2 = asg ∨
    (asg.min_size < (asg.instances.length : Int) ∧
      ∃ j pool', j < asg.instances.length ∧
        asg.remove_instance.2 =
          { asg with instances := asg.instances.eraseIdx j, warm_pool := pool' }) := by
  by_cases h : (asg.instances.length : Int) ≤ asg.min_size
  · exact Or.inl (by simp [AutoScalingGroup.remove_instance, h])
  · rcases hs : selectMin asg.instances with _ | ⟨j, m⟩
    · refine Or.inl ?_
      unfold AutoScalingGroup.remove_instance
      rw [if_neg h, hs]
    · refine Or.inr ⟨not_le.mp h, j, ?_⟩
      have hj := selectMin_idx_lt asg.instances j m hs
      unfold AutoScalingGroup.remove_instance
      rw [if_neg h, hs]
      dsimp only
      rcases asg.warm_pool with _ | wp
      · exact ⟨_, hj, rfl⟩
      · dsimp only
        by_cases hcap : (wp.instances.length : Int) < wp.size
        · rw [if_pos hcap]
          exact ⟨_, hj, rfl⟩
        · rw [if_neg hcap]
          exact ⟨_, hj, rfl⟩

/-- One _add_instance call preserves the capacity invariant. -/
theorem add_instance_inv (asg : AutoScalingGroup) (sh : ShuffleFn) (h : asgInv asg) :
    asgInv (asg.add_instance sh).2 := by
  rcases add_instance_cases asg sh with ⟨_, heq⟩ | ⟨hlt, i, pool', heq⟩
  · rwa [heq]
  · rw [heq]
    unfold asgInv at h ⊢
    simp only [List.length_append, List.length_cons, List.length_nil]
    obtain ⟨h1, h2⟩ := h
    constructor <;> omega

/-- One _remove_instance call preserves the capacity invariant. -/
theorem remove_instance_inv (asg : AutoScalingGroup) (h : asgInv asg) :
    asgInv asg.remove_instance.2 := by
  rcases remove_instance_cases asg with heq | ⟨hlt, j, pool', hj, heq⟩
  · rwa [heq]
  · rw [heq]
    unfold asgInv at h ⊢
    rw [List.length_eraseIdx]
    simp only [if_pos hj]
    obtain ⟨h1, h2⟩ := h
    constructor <;> omega

/-- A run of _add_instance calls preserves the capacity invariant. -/
theorem run_adds_inv (sh : ShuffleFn) (n : Nat) :
    ∀ asg, asgInv asg → asgInv (AutoScalingGroup.run_adds sh n asg) := by
  induction n with
  | zero => exact fun asg h => h
  | succ n ih => exact fun asg h => ih _ (add_instance_inv asg sh h)

/-- A run of _remove_instance calls preserves the capacity invariant. -/
theorem run_removes_inv (n : Nat) :
    ∀ asg, asgInv asg → asgInv (AutoScalingGroup.run_removes n asg) := by
  induction n with
  | zero => exact fun asg h => h
  | succ n ih => exact fun asg h => ih _ (remove_instance_inv asg h)

/-- A policy pass whose firing action preserves the capacity invariant
preserves it as a whole. -/
theorem evalPolicies_inv (avg now : Rat)
    (act : ScalingPolicy → AutoScalingGroup → AutoScalingGroup)
    (hact : ∀ p a, asgInv a → asgInv (act p a)) :
    ∀ l asg, asgInv asg → asgInv (evalPolicies avg now act l asg).2 := by
  intro l
  induction l with
  | nil => exact fun asg h => h
  | cons p rest ih =>
    intro asg h
    unfold evalPolicies
    rcases hps : p.should_scale avg now with ⟨fire, p'⟩
    cases fire
    · simpa using ih asg h
    · simpa using ih (act p asg) (hact p asg h)

/-- evaluate_metrics preserves the capacity invariant. -/
theorem evaluate_metrics_inv (asg : AutoScalingGroup) (now : Rat) (sh : ShuffleFn)
    (h : asgInv asg) : asgInv (asg.evaluate_metrics now sh) := by
  simp only [AutoScalingGroup.evaluate_metrics]
  exact evalPolicies_inv _ _ _
    (fun p a ha => run_removes_inv p.adjustment.toNat a ha) _ _
    (evalPolicies_inv _ _ _ (fun p a ha => run_adds_inv sh p.adjustment.toNat a ha) _ _ h)

/-- start preserves the capacity invariant. -/
theorem start_inv (asg : AutoScalingGroup) (sh : ShuffleFn) (h : asgInv asg) :
    asgInv (asg.start sh) := by
  unfold AutoScalingGroup.start
  rcases asg.warm_pool with _ | wp
  · exact run_adds_inv sh _ _ h
  · exact run_adds_inv sh _ _ h

/-- The check_health loop preserves the capacity invariant for any fuel. -/
theorem check_health_loop_inv (sh : ShuffleFn) (fuel : Nat) :
    ∀ i asg, asgInv asg → asgInv (AutoScalingGroup.check_health_loop sh fuel i asg) := by
  induction fuel with
  | zero => exact fun i asg h => h
  | succ fuel ih =>
    intro i asg h
    unfold AutoScalingGroup.check_health_loop
    rcases asg.instances[i]? with _ | inst
    · exact h
    · dsimp only
      have hupd : asgInv { asg with
          instances := asg.instances.set i (asg.health_check.check_instance inst).2 } := by
        unfold asgInv at h ⊢
        simpa [List.length_set] using h
      cases hok : (asg.health_check.check_instance inst).1 with
      | false =>
        rw [if_neg (by simp)]
        exact ih _ _ (add_instance_inv _ sh (remove_instance_inv _ hupd))
      | true =>
        rw [if_pos rfl]
        exact ih _ _ hupd

/-- simulate_traffic preserves the capacity invariant. -/
theorem simulate_traffic_inv (asg : AutoScalingGroup) (load : Rat) (h : asgInv asg) :
    asgInv (asg.simulate_traffic load) := by
  unfold asgInv at h ⊢
  simpa [AutoScalingGroup.simulate_traffic, List.length_map] using h

/-- Every single group-level mutation preserves the capacity invariant. -/
theorem asgOp_inv (op : AsgOp) (asg : AutoScalingGroup) (h : asgInv asg) :
    asgInv (op.apply asg) := by
  cases op with
  | addOne sh => exact add_instance_inv asg sh h
  | removeOne => exact remove_instance_inv asg h
  | startGroup sh => exact start_inv asg sh h
  | evaluate now sh => exact evaluate_metrics_inv asg now sh h
  | health fuel sh => exact check_health_loop_inv sh fuel 0 asg h
  | traffic load => exact simulate_traffic_inv asg load h

/-- C1 amended: whenever the capacity bounds hold of a group, every
sequence of add-instance and remove-instance operations — including those
performed inside start, evaluate_metrics and check_health — preserves
min_size at most the active count at most max_size.  The bounds are
preserved, not established: a group below min_size (the freshly constructed
empty group, or a stopped group) is not brought back into range, which is
what the separate counterexample records. -/
theorem asg_capacity_bounds_preserved (asg : AutoScalingGroup) (ops : List AsgOp)
    (h : asgInv asg) : asgInv (applyOps asg ops) := by
  induction ops generalizing asg with
  | nil => exact h
  | cons op rest ih =>
    have hstep := asgOp_inv op asg h
    simpa [applyOps] using ih (op.apply asg) hstep

/-- C1 counterexample: the claim as stated fails at stop — the started
fresh group satisfies the bounds, but stop empties the active list, leaving
the count 0 strictly below min_size 1. -/
theorem asg_capacity_bounds_not_universal :
    asgInv (asgFresh.start id) ∧ ¬ asgInv (asgFresh.start id).stop := by
  constructor
  · decide
  · decide

/-- Witness for the preservation theorem: the started fresh group satisfies
the bounds and still does after a remove, an add and a health pass. -/
theorem asg_capacity_bounds_preserved_witness :
    asgInv (asgFresh.start id) ∧
      asgInv (applyOps (asgFresh.start id)
        [AsgOp.removeOne, AsgOp.addOne id, AsgOp.health 4 id]) :=
  ⟨by decide, asg_capacity_bounds_preserved _ _ (by decide)⟩

/-- C3: the claim fails on the code.  In the group holding failing i-A
(stopped, CPU 50, one prior failed check, threshold 2) and healthy i-B
(running, CPU 10), the health pass detects i-A as unhealthy but the
replacement step runs _remove_instance, which deletes the lowest-CPU
instance: healthy i-B is removed, a fresh replacement g-instance-2 is
appended, and the unhealthy i-A stays in the active list — the failing
instance is not the one removed, because the loop also iterates the live
list as it is being mutated rather than a snapshot. -/
theorem check_health_removes_lowest_cpu_not_failing :
    (asgHealth.check_health id 10).instances.map
        (fun i => (i.resource_id, i.status, i.health_status)) =
      [("i-A", "stopped", "unhealthy"), ("g-instance-2", "running", "healthy")] ∧
    ¬ "i-B" ∈ (asgHealth.check_health id 10).instances.map (fun i => i.resource_id) := by
  constructor
  · decide
  · decide

/-- C10: duplicate active-instance ids are reachable.  From the fresh
group, add two instances (g-instance-1, g-instance-2), remove one — both
sit at CPU 0, so the first minimum, g-instance-1, is deleted — and add
again: the new instance is named from the current count 1 as g-instance-2,
colliding with the id already in the active list. -/
theorem instance_id_collision_reachable :
    asgBeforeDup.instances.map (fun i => i.resource_id) = ["g-instance-2"] ∧
    Option.map (fun i => i.resource_id) (asgBeforeDup.add_instance id).1 =
      some "g-instance-2" ∧
    asgDupState.instances.map (fun i => i.resource_id) =
      ["g-instance-2", "g-instance-2"] ∧
    ¬ (asgDupState.instances.map (fun i => i.resource_id)).Nodup := by
  refine ⟨by decide, by decide, by decide, by decide⟩
